import Mathlib

/-!
# Verification of the devil_server device observer

Shallow embedding of `src/devil/DeviceObserver.cpp` (the `readId` identity
resolver, the `invokeIfMatch` property matcher, the `handleDeviceEvent`
classifier and the `receiveEvent` read loop), together with theorems
settling the specified properties of these functions.

Device records are modelled by their observable attributes: the udev action
tag, a property lookup function (`udev_device_get_property_value`, where
`none` models a NULL pointer, i.e. an absent property) and the device node
path (`udev_device_get_devnode`, again `none` for NULL).
-/

namespace Devil

/-- A udev device record, reduced to the attributes the observer reads:
the action tag, the named string properties, and the `/dev` node path.
`none` models a NULL pointer returned by the corresponding accessor. -/
structure DeviceRecord where
  action : Option String
  props : String → Option String
  devnode : Option String

/-- `udev_device_get_property_value(dev, name)`. -/
def getProp (d : DeviceRecord) (name : String) : Option String :=
  d.props name

/-- The character set searched by `p.find_last_of("usb-")`: C++
`find_last_of` with a C string argument searches for the last occurrence of
ANY character of the argument, not of the substring. -/
def usbMarkerChars : List Char := ['u', 's', 'b', '-']

/-- Index of the last element of `cs` that belongs to `set`
(`std::string::find_last_of`, with `none` for `npos`). -/
def lastIdxOf (set : List Char) : List Char → Option Nat
  | [] => none
  | c :: rest =>
    match lastIdxOf set rest with
    | some i => some (i + 1)
    | none => if set.contains c then some 0 else none

/-- `readId` from `DeviceObserver.cpp` (lines 102-138).  Returns `none`
exactly when the C++ reaches undefined behaviour: with no serial and no
path tag it runs `std::string(udev_device_get_devnode(dev))`, which is UB
when the devnode pointer is NULL. -/
def readId (d : DeviceRecord) (noSerialPrefix : String) : Option String :=
  match getProp d "ID_SERIAL_SHORT" with
  | some serial => some serial
  | none =>
    let id0 := "[" ++ noSerialPrefix ++ "/"
    match getProp d "ID_PATH_TAG" with
    | some physPath =>
      -- `auto idx = p.find_last_of("usb-"); if (idx < p.size()) ...`
      let suffix :=
        match lastIdxOf usbMarkerChars physPath.data with
        | some idx => String.mk (physPath.data.drop (idx + 1))
        | none => physPath
      some (id0 ++ suffix ++ "]")
    | none =>
      match d.devnode with
      | none => none
      | some node =>
        let n := if node.data.length > 5 then String.mk (node.data.drop 5) else node
        some (id0 ++ n ++ "]")

/-- The placeholder used for an absent property: `if (!p) p = "[null]";`. -/
def nullPlaceholder : String := "[null]"

/-- The value `invokeIfMatch` compares against the filter: the property, or
the placeholder when the property is absent. -/
def propOrNull (d : DeviceRecord) (name : String) : String :=
  (getProp d name).getD nullPlaceholder

/-- Observable outcome of one `invokeIfMatch` run: whether the callback at
the end was reached, which mismatch diagnostics were logged
(name, actual, expected), and which filter properties were read from the
record, in order. -/
structure MatchOutcome where
  invoked : Bool
  diags : List (String × String × String)
  reads : List String
deriving Repr, DecidableEq

/-- `DeviceObserver::invokeIfMatch` (lines 141-165), parametrised by the
filter list `target_device::properties`.  Walks the filter pairs in order;
the first pair whose (placeholder-defaulted) property differs from the
expected value stops the walk, logging the mismatch unless the property
name is `ID_BUS` or `ID_USB_INTERFACE_NUM`; if all pairs match, the
callback is invoked (`invoked = true`). -/
def invokeIfMatch (d : DeviceRecord) : List (String × String) → MatchOutcome
  | [] => { invoked := true, diags := [], reads := [] }
  | (name, expected) :: rest =>
    if propOrNull d name ≠ expected then
      { invoked := false
        diags :=
          if name ≠ "ID_BUS" ∧ name ≠ "ID_USB_INTERFACE_NUM" then
            [(name, propOrNull d name, expected)]
          else []
        reads := [name] }
    else
      { invokeIfMatch d rest with reads := name :: (invokeIfMatch d rest).reads }

/-- Which of the two user callbacks an event is routed to. -/
inductive CallbackKind where
  | add
  | remove
deriving Repr, DecidableEq

/-- Observable outcome of `handleDeviceEvent`: the callback invoked (if
any) and the diagnostics logged. -/
structure EventOutcome where
  invoked : Option CallbackKind
  diags : List (String × String × String)
deriving Repr, DecidableEq

/-- The handler selection of `handleDeviceEvent` (lines 88-96): `handler`
stays null when the action is neither `add` nor `remove`, or when the
corresponding callback was not supplied (`hasAdd` / `hasRemove` model
whether `addCallback_` / `removeCallback_` are non-null). -/
def selectHandler (hasAdd hasRemove : Bool) (action : String) : Option CallbackKind :=
  if action = "add" then (if hasAdd then some .add else none)
  else if action = "remove" then (if hasRemove then some .remove else none)
  else none

/-- The tail of `handleDeviceEvent` once a non-null action tag was read:
`if (!handler) return;` and otherwise `invokeIfMatch(handler, dev)`. -/
def handleAction (filters : List (String × String)) (hasAdd hasRemove : Bool)
    (d : DeviceRecord) (action : String) : EventOutcome :=
  match selectHandler hasAdd hasRemove action with
  | none => { invoked := none, diags := [] }
  | some k =>
    { invoked := if (invokeIfMatch d filters).invoked then some k else none
      diags := (invokeIfMatch d filters).diags }

/-- `DeviceObserver::handleDeviceEvent` (lines 87-99).  An absent action
tag, an action other than `add` / `remove`, or a null handler all cause an
early return with no callback and no diagnostic. -/
def handleDeviceEvent (filters : List (String × String)) (hasAdd hasRemove : Bool)
    (d : DeviceRecord) : EventOutcome :=
  match d.action with
  | none => { invoked := none, diags := [] }
  | some action => handleAction filters hasAdd hasRemove d action

/-- Completion status of the `async_read_some` wait.  `badFileDescriptor`
is the distinguished code the loop receives after `stop()` closed the
stream; any other code lets processing proceed. -/
inductive ErrorCode where
  | success
  | badFileDescriptor
  | other
deriving Repr, DecidableEq

/-- Result of one turn of the read-loop lambda in
`DeviceObserver::receiveEvent` (lines 70-85): either the chain terminates
(`stop()` was observed), or the event is handled and `receiveEvent()`
re-arms the loop. -/
inductive StepResult where
  | terminated
  | rearmed (out : EventOutcome)
deriving Repr, DecidableEq

/-- One turn of the read loop: `if (ec == errc::bad_file_descriptor)
return;` exits the callback chain; otherwise the dequeued device is handled
and the loop re-arms. -/
def receiveEventStep (filters : List (String × String)) (hasAdd hasRemove : Bool)
    (ec : ErrorCode) (d : DeviceRecord) : StepResult :=
  if ec = ErrorCode.badFileDescriptor then .terminated
  else .rearmed (handleDeviceEvent filters hasAdd hasRemove d)

/-- The read loop run over the queue of pending events.  `closed` models
whether `stop()` has closed the notification channel: a closed channel
makes every pending (or in-flight) wait resolve with
`bad_file_descriptor`, so the loop exits before dequeuing anything;
otherwise each pending event is handled in order and the loop re-arms. -/
def runLoop (filters : List (String × String)) (hasAdd hasRemove : Bool)
    (closed : Bool) : List DeviceRecord → List EventOutcome
  | [] => []
  | d :: rest =>
    if closed then []
    else handleDeviceEvent filters hasAdd hasRemove d ::
      runLoop filters hasAdd hasRemove closed rest

/-! ## Spec-side definitions

These follow the wording of the specification (not the code) and exist to
be compared against the code-level definitions above. -/

/-- Modelled from the spec: position of the last occurrence of the
substring `sub` inside `s` (the spec reads the suffix "after the last
occurrence of that exact marker substring"). -/
def lastSubstrPos (s sub : List Char) : Option Nat :=
  (((List.range (s.length + 1)).filter fun i => (s.drop i).take sub.length == sub)).getLast?

/-- Modelled from the spec: `true` iff `s` contains the substring `sub`. -/
def hasSubstr (s sub : List Char) : Bool :=
  (lastSubstrPos s sub).isSome

/-- Modelled from the spec: the part of `s` after the last occurrence of
the substring `sub`; the whole of `s` if `sub` does not occur. -/
def afterLastSubstr (s : String) (sub : String) : String :=
  match lastSubstrPos s.data sub.data with
  | some i => String.mk (s.data.drop (i + sub.data.length))
  | none => s

/-- The longest suffix of `cs` free of characters from `set`; the amended
description of what `find_last_of` + `substr(idx + 1)` extracts. -/
def noMarkerSuffix (set : List Char) (cs : List Char) : List Char :=
  (cs.reverse.takeWhile fun c => !set.contains c).reverse

/-- The conventional device-directory root whose length the devnode
fallback strips (`// Skip initial "/dev/".`). -/
def devRoot : String := "/dev/"

/-! ## Concrete device records used to instantiate the theorems -/

/-- A record with a serial number; every other property reads as the string
`"IGNORED"`, so that the path tag is present yet visibly without influence. -/
def recSerial : DeviceRecord :=
  { action := none
    props := fun name => if name = "ID_SERIAL_SHORT" then some "ABC123" else some "IGNORED"
    devnode := some "/dev/ttyUSB0" }

/-- A record whose serial property is present but empty, with path tag and
devnode both present. -/
def recEmptySerial : DeviceRecord :=
  { action := none
    props := fun name => if name = "ID_SERIAL_SHORT" then some "" else some "tag"
    devnode := some "/dev/node" }

/-- A record with only a well-formed USB path tag. -/
def recUsbTag : DeviceRecord :=
  { action := none
    props := fun name => if name = "ID_PATH_TAG" then some "pci-0-usb-1:2" else none
    devnode := none }

/-- A record whose path tag contains the marker substring `usb-` followed by
further marker characters, separating the substring reading of the marker
search from the character-set reading. -/
def recTagUsbAB : DeviceRecord :=
  { action := none
    props := fun name => if name = "ID_PATH_TAG" then some "usb-a-b" else none
    devnode := none }

/-- A record with neither serial nor path tag, devnode under `/dev/`. -/
def recDevNode : DeviceRecord :=
  { action := none
    props := fun _ => none
    devnode := some "/dev/ttyACM0" }

/-- A record with neither serial nor path tag whose devnode does not start
with `/dev/` but is longer than five characters. -/
def recOddNode : DeviceRecord :=
  { action := none
    props := fun _ => none
    devnode := some "no-dev-prefix" }

/-- A record on which every accessor returns NULL. -/
def recAllNull : DeviceRecord :=
  { action := none
    props := fun _ => none
    devnode := none }

/-- A live event whose action tag is neither `add` nor `remove`. -/
def recChangeEvent : DeviceRecord :=
  { action := some "change"
    props := fun _ => none
    devnode := some "/dev/ttyUSB0" }

/-- A matching live `add` event for the loop theorems. -/
def recAddEvent : DeviceRecord :=
  { action := some "add"
    props := fun name => if name = "ID_VENDOR" then some "Acme" else none
    devnode := some "/dev/ttyUSB0" }

/-- A record carrying `ID_VENDOR = Acme` and `SUBSYSTEM = tty` for the
matcher theorems. -/
def recAcme : DeviceRecord :=
  { action := none
    props := fun name =>
      if name = "ID_VENDOR" then some "Acme"
      else if name = "SUBSYSTEM" then some "tty"
      else none
    devnode := some "/dev/ttyUSB0" }

/-- A record carrying `ID_VENDOR = OtherCo` for the diagnostics theorems. -/
def recOtherCo : DeviceRecord :=
  { action := none
    props := fun name => if name = "ID_VENDOR" then some "OtherCo" else none
    devnode := none }

/-! ## Theorems -/

/-- **C3.** A record with a present, non-empty `ID_SERIAL_SHORT` resolves to
exactly that value.  The statement quantifies over every record carrying the
serial, so the path tag and devnode can have no influence on the result. -/
theorem C3_serial_identity (d : DeviceRecord) (pre s : String)
    (h : getProp d "ID_SERIAL_SHORT" = some s) (_hne : s ≠ "") :
    readId d pre = some s := by
  unfold readId
  rw [h]

/-- Witness for C3 on a concrete record whose path tag reads `"IGNORED"`. -/
theorem C3_serial_identity_witness : readId recSerial "evil" = some "ABC123" :=
  C3_serial_identity recSerial "evil" "ABC123" rfl (by decide)

/-- **C9.** A present-but-empty `ID_SERIAL_SHORT` is still returned verbatim
(the C++ tests the pointer, not the contents), so the identity is the empty
string and the synthetic fallback is not taken. -/
theorem C9_empty_serial_identity (d : DeviceRecord) (pre : String)
    (h : getProp d "ID_SERIAL_SHORT" = some "") :
    readId d pre = some "" := by
  unfold readId
  rw [h]

/-- Witness for C9 on a record with an empty serial and both fallback
attributes present. -/
theorem C9_empty_serial_identity_witness : readId recEmptySerial "evil" = some "" :=
  C9_empty_serial_identity recEmptySerial "evil" rfl

/-- **C4.** With no serial and no path tag, the identity is
`[<prefix>/<suffix>]` where the suffix drops the first `devRoot`-length
(five) characters of the devnode when the node is longer than that, and is
the unmodified node otherwise. -/
theorem C4_devnode_fallback (d : DeviceRecord) (pre node : String)
    (hs : getProp d "ID_SERIAL_SHORT" = none)
    (ht : getProp d "ID_PATH_TAG" = none)
    (hn : d.devnode = some node) :
    readId d pre =
      some ("[" ++ pre ++ "/" ++
        (if devRoot.data.length < node.data.length then
          String.mk (node.data.drop devRoot.data.length)
        else node) ++ "]") := by
  unfold readId
  rw [hs, ht, hn]
  rfl

/-- Witness for C4 on a devnode under `/dev/`. -/
theorem C4_devnode_fallback_witness : readId recDevNode "evil" = some "[evil/ttyACM0]" :=
  (C4_devnode_fallback recDevNode "evil" "/dev/ttyACM0" rfl rfl rfl).trans (by decide)

/-- **C10.** The devnode fallback strips by position: the first five
characters go whenever the node is longer than five characters, with no
check that they spell `/dev/`.  The theorem holds for every node string of
length above five, whatever its content. -/
theorem C10_positional_strip (d : DeviceRecord) (pre node : String)
    (hs : getProp d "ID_SERIAL_SHORT" = none)
    (ht : getProp d "ID_PATH_TAG" = none)
    (hn : d.devnode = some node)
    (hlen : 5 < node.data.length) :
    readId d pre = some ("[" ++ pre ++ "/" ++ String.mk (node.data.drop 5) ++ "]") := by
  unfold readId
  rw [hs, ht, hn]
  show some (("[" ++ pre ++ "/") ++
    (if node.data.length > 5 then String.mk (node.data.drop 5) else node) ++ "]") = _
  rw [if_pos hlen]

/-- Witness for C10 on a devnode that does not start with `/dev/`: the
first five characters are removed all the same. -/
theorem C10_positional_strip_witness : readId recOddNode "evil" = some "[evil/v-prefix]" :=
  (C10_positional_strip recOddNode "evil" "no-dev-prefix" rfl rfl rfl (by decide)).trans
    (by decide)

/-- **C5 counterexample.** On a record on which every accessor returns
NULL, `readId` reaches `std::string(udev_device_get_devnode(dev))` with a
NULL pointer — undefined behaviour, modelled as `none` — so the resolver is
not total over every combination of absent attributes. -/
theorem C5_counterexample : readId recAllNull "evil" = none := rfl

/-- **C5 (amended).** The resolver produces an identity for every record on
which at least one of the three consulted attributes (serial, path tag,
devnode) is present. -/
theorem C5_total_when_attribute_present (d : DeviceRecord) (pre : String)
    (h : getProp d "ID_SERIAL_SHORT" ≠ none ∨ getProp d "ID_PATH_TAG" ≠ none ∨
      d.devnode ≠ none) :
    ∃ s, readId d pre = some s := by
  unfold readId
  cases hs : getProp d "ID_SERIAL_SHORT" with
  | some serial => exact ⟨serial, rfl⟩
  | none =>
    cases ht : getProp d "ID_PATH_TAG" with
    | some physPath => exact ⟨_, rfl⟩
    | none =>
      cases hn : d.devnode with
      | some node => exact ⟨_, rfl⟩
      | none =>
        rcases h with h | h | h
        · exact absurd hs h
        · exact absurd ht h
        · exact absurd hn h

/-- Witness for the amended C5 on a record with only a devnode. -/
theorem C5_total_when_attribute_present_witness : (readId recDevNode "evil").isSome = true := by
  obtain ⟨s, hs⟩ := C5_total_when_attribute_present recDevNode "evil"
    (Or.inr (Or.inr (by decide)))
  rw [hs]
  rfl

/-! ### The path-tag suffix extraction (claim C1)

`p.find_last_of("usb-")` searches for the last occurrence of any of the four
characters `u`, `s`, `b`, `-`, not of the substring `usb-`.  The following
lemmas show that dropping everything up to and including that character
yields exactly the longest suffix free of those characters
(`noMarkerSuffix`), which is the amended description of the extraction. -/

/-- Negation of a positive `contains` test. -/
theorem not_contains_eq_false {set : List Char} {c : Char} (h : set.contains c = true) :
    (!set.contains c) = false := by rw [h]; rfl

/-- Negation of a negative `contains` test. -/
theorem not_contains_eq_true {set : List Char} {c : Char} (h : set.contains c = false) :
    (!set.contains c) = true := by rw [h]; rfl

/-- If `find_last_of` reports no hit, no element of `cs` lies in `set`. -/
theorem lastIdxOf_eq_none_forall (set : List Char) :
    ∀ cs, lastIdxOf set cs = none → ∀ c ∈ cs, set.contains c = false := by
  intro cs
  induction cs with
  | nil => exact fun _ c hc => absurd hc (List.not_mem_nil c)
  | cons a rest ih =>
    intro h c hc
    rw [lastIdxOf] at h
    cases hrest : lastIdxOf set rest with
    | some i => rw [hrest] at h; exact absurd h (by simp)
    | none =>
      rw [hrest] at h
      cases hca : set.contains a with
      | true => rw [if_pos hca] at h; exact absurd h (by simp)
      | false =>
        cases hc with
        | head => exact hca
        | tail _ hc => exact ih hrest c hc

/-- A hit of `find_last_of` exhibits an element of `cs` in `set`. -/
theorem exists_mem_of_lastIdxOf_eq_some (set : List Char) :
    ∀ (cs : List Char) (i : Nat), lastIdxOf set cs = some i →
      ∃ c ∈ cs, set.contains c = true := by
  intro cs
  induction cs with
  | nil => intro i h; exact absurd h (by simp [lastIdxOf])
  | cons a rest ih =>
    intro i h
    rw [lastIdxOf] at h
    cases hrest : lastIdxOf set rest with
    | some j =>
      obtain ⟨c, hc, hcs⟩ := ih j hrest
      exact ⟨c, List.mem_cons_of_mem a hc, hcs⟩
    | none =>
      rw [hrest] at h
      cases hca : set.contains a with
      | true => exact ⟨a, List.mem_cons_self a rest, hca⟩
      | false =>
        rw [if_neg (fun hc => by rw [hca] at hc; exact Bool.false_ne_true hc)] at h
        exact absurd h (by simp)

/-- `takeWhile` walks through a fully satisfying prefix. -/
theorem takeWhile_append_of_forall {α : Type} (q : α → Bool) :
    ∀ (l l' : List α), (∀ x ∈ l, q x = true) →
      (l ++ l').takeWhile q = l ++ l'.takeWhile q := by
  intro l
  induction l with
  | nil => intro l' _; rfl
  | cons a l ih =>
    intro l' h
    have ha : q a = true := h a (List.mem_cons_self a l)
    simp only [List.cons_append, List.takeWhile, ha, List.append_eq]
    rw [ih l' fun x hx => h x (List.mem_cons_of_mem a hx)]

/-- `takeWhile` never reaches past an element falsifying the predicate. -/
theorem takeWhile_append_of_mem_false {α : Type} (q : α → Bool) :
    ∀ (l l' : List α) (x : α), x ∈ l → q x = false →
      (l ++ l').takeWhile q = l.takeWhile q := by
  intro l
  induction l with
  | nil => intro l' x hx _; exact absurd hx (List.not_mem_nil x)
  | cons a l ih =>
    intro l' x hx hq
    cases hqa : q a with
    | false => simp only [List.cons_append, List.takeWhile, hqa]
    | true =>
      simp only [List.cons_append, List.takeWhile, hqa, List.append_eq]
      cases hx with
      | head => rw [hqa] at hq; exact absurd hq (by simp)
      | tail _ hx => rw [ih l' x hx hq]

/-- `takeWhile` keeps a list all of whose elements satisfy the predicate. -/
theorem takeWhile_eq_self_of_forall {α : Type} (q : α → Bool) (l : List α)
    (h : ∀ x ∈ l, q x = true) : l.takeWhile q = l := by
  have key := takeWhile_append_of_forall q l [] h
  simpa using key

/-- Dropping past the last `find_last_of` hit — or keeping everything when
there is no hit — yields the longest suffix free of `set` characters. -/
theorem drop_lastIdxOf_eq_noMarkerSuffix (set : List Char) :
    ∀ cs : List Char,
      (match lastIdxOf set cs with
       | some i => cs.drop (i + 1)
       | none => cs) = noMarkerSuffix set cs := by
  intro cs
  induction cs with
  | nil => rfl
  | cons a rest ih =>
    cases hrest : lastIdxOf set rest with
    | some i =>
      have ih' : rest.drop (i + 1) = noMarkerSuffix set rest := by
        rw [hrest] at ih; exact ih
      have hcons : lastIdxOf set (a :: rest) = some (i + 1) := by
        rw [lastIdxOf, hrest]
      rw [hcons]
      show rest.drop (i + 1) = noMarkerSuffix set (a :: rest)
      rw [ih']
      obtain ⟨c, hc, hcset⟩ := exists_mem_of_lastIdxOf_eq_some set rest i hrest
      unfold noMarkerSuffix
      rw [List.reverse_cons,
        takeWhile_append_of_mem_false _ rest.reverse [a] c (List.mem_reverse.mpr hc)
          (not_contains_eq_false hcset)]
    | none =>
      have hall := lastIdxOf_eq_none_forall set rest hrest
      cases hca : set.contains a with
      | true =>
        have hcons : lastIdxOf set (a :: rest) = some 0 := by
          rw [lastIdxOf, hrest, if_pos hca]
        rw [hcons]
        show rest = noMarkerSuffix set (a :: rest)
        unfold noMarkerSuffix
        rw [List.reverse_cons,
          takeWhile_append_of_forall _ rest.reverse [a]
            (fun x hx => not_contains_eq_true (hall x (List.mem_reverse.mp hx)))]
        rw [show List.takeWhile (fun c => !set.contains c) [a] = [] from by
          simp only [List.takeWhile, not_contains_eq_false hca]]
        rw [List.append_nil, List.reverse_reverse]
      | false =>
        have hcons : lastIdxOf set (a :: rest) = none := by
          rw [lastIdxOf, hrest,
            if_neg (fun hc => by rw [hca] at hc; exact Bool.false_ne_true hc)]
        rw [hcons]
        show a :: rest = noMarkerSuffix set (a :: rest)
        unfold noMarkerSuffix
        rw [takeWhile_eq_self_of_forall _ _ fun x hx => ?_, List.reverse_reverse]
        cases List.mem_reverse.mp hx with
        | head => exact not_contains_eq_true hca
        | tail _ hmem => exact not_contains_eq_true (hall x hmem)

/-- **C1 counterexample.** On the path tag `usb-a-b` (which contains the
marker substring `usb-`), the claim predicts the suffix `a-b` — the part
after the last occurrence of the substring — but `find_last_of` is a
character-set search, finds the final `b`, and the code produces the empty
suffix instead. -/
theorem C1_counterexample :
    getProp recTagUsbAB "ID_SERIAL_SHORT" = none ∧
    getProp recTagUsbAB "ID_PATH_TAG" = some "usb-a-b" ∧
    hasSubstr ("usb-a-b").data ("usb-").data = true ∧
    afterLastSubstr "usb-a-b" "usb-" = "a-b" ∧
    readId recTagUsbAB "evil" = some "[evil/]" ∧
    readId recTagUsbAB "evil" ≠
      some ("[" ++ "evil" ++ "/" ++ afterLastSubstr "usb-a-b" "usb-" ++ "]") := by
  refine ⟨rfl, rfl, by decide, by decide, by decide, by decide⟩

/-- **C1 (amended).** With no serial and a path tag, the identity suffix is
the longest trailing part of the tag containing none of the four characters
`u`, `s`, `b`, `-` — i.e. everything after the last occurrence of any one of
the marker's characters, not after the last occurrence of the marker
substring. -/
theorem C1_tag_suffix (d : DeviceRecord) (pre tag : String)
    (hs : getProp d "ID_SERIAL_SHORT" = none)
    (ht : getProp d "ID_PATH_TAG" = some tag)
    (_hm : hasSubstr tag.data ("usb-").data = true) :
    readId d pre =
      some ("[" ++ pre ++ "/" ++ String.mk (noMarkerSuffix usbMarkerChars tag.data) ++ "]") := by
  unfold readId
  rw [hs, ht]
  show some (("[" ++ pre ++ "/") ++
      (match lastIdxOf usbMarkerChars tag.data with
       | some idx => String.mk (tag.data.drop (idx + 1))
       | none => tag) ++ "]") = _
  have key := drop_lastIdxOf_eq_noMarkerSuffix usbMarkerChars tag.data
  cases hL : lastIdxOf usbMarkerChars tag.data with
  | some i =>
    have key' : tag.data.drop (i + 1) = noMarkerSuffix usbMarkerChars tag.data := by
      rw [hL] at key; exact key
    show some (("[" ++ pre ++ "/") ++ String.mk (tag.data.drop (i + 1)) ++ "]") = _
    rw [key']
  | none =>
    have key' : tag.data = noMarkerSuffix usbMarkerChars tag.data := by
      rw [hL] at key; exact key
    show some (("[" ++ pre ++ "/") ++ tag ++ "]") = _
    rw [← key']

/-- Witness for the amended C1 on the tag `pci-0-usb-1:2`. -/
theorem C1_tag_suffix_witness : readId recUsbTag "evil" = some "[evil/1:2]" :=
  (C1_tag_suffix recUsbTag "evil" "pci-0-usb-1:2" rfl rfl (by decide)).trans (by decide)

/-! ### The property matcher (claims C2 and C7) -/

/-- `invokeIfMatch` walks unchanged through a prefix of matching pairs,
reading exactly their property names before whatever the remaining filter
pairs produce. -/
theorem invokeIfMatch_append_matched (d : DeviceRecord) :
    ∀ (F₁ F₂ : List (String × String)), (∀ p ∈ F₁, propOrNull d p.1 = p.2) →
      invokeIfMatch d (F₁ ++ F₂) =
        { invoked := (invokeIfMatch d F₂).invoked
          diags := (invokeIfMatch d F₂).diags
          reads := F₁.map Prod.fst ++ (invokeIfMatch d F₂).reads } := by
  intro F₁
  induction F₁ with
  | nil => intro F₂ _; rfl
  | cons pair F₁' ih =>
    intro F₂ h
    obtain ⟨name, expected⟩ := pair
    have hp : propOrNull d name = expected := h (name, expected) (List.mem_cons_self _ _)
    show invokeIfMatch d ((name, expected) :: (F₁' ++ F₂)) = _
    rw [invokeIfMatch, if_neg (not_not_intro hp),
      ih F₂ fun p hmem => h p (List.mem_cons_of_mem _ hmem)]
    rfl

/-- **C2.** The matcher invokes the callback iff every filter pair equals
the record's property of that name (an absent property reading as the
`[null]` placeholder); and when some pair fails, the properties read are
exactly the matching prefix up to and including the first failing pair —
later pairs are not read. -/
theorem C2_property_matcher (d : DeviceRecord) (F : List (String × String)) :
    ((invokeIfMatch d F).invoked = true ↔ ∀ p ∈ F, propOrNull d p.1 = p.2) ∧
    (∀ F₁ n e F₂, F = F₁ ++ (n, e) :: F₂ →
      (∀ p ∈ F₁, propOrNull d p.1 = p.2) → propOrNull d n ≠ e →
      (invokeIfMatch d F).reads = F₁.map Prod.fst ++ [n]) := by
  constructor
  · induction F with
    | nil =>
      constructor
      · intro _ p hmem
        exact absurd hmem (List.not_mem_nil p)
      · intro _
        rfl
    | cons pair rest ih =>
      obtain ⟨name, expected⟩ := pair
      by_cases hp : propOrNull d name = expected
      · rw [invokeIfMatch, if_neg (not_not_intro hp)]
        show (invokeIfMatch d rest).invoked = true ↔ _
        rw [ih]
        constructor
        · intro h p hmem
          cases hmem with
          | head => exact hp
          | tail _ hmem => exact h p hmem
        · intro h p hmem
          exact h p (List.mem_cons_of_mem _ hmem)
      · rw [invokeIfMatch, if_pos hp]
        show false = true ↔ _
        constructor
        · intro h
          exact absurd h (by simp)
        · intro h
          exact absurd (h (name, expected) (List.mem_cons_self _ _)) hp
  · intro F₁ n e F₂ hF hpre hfail
    subst hF
    rw [invokeIfMatch_append_matched d F₁ ((n, e) :: F₂) hpre]
    show F₁.map Prod.fst ++ (invokeIfMatch d ((n, e) :: F₂)).reads = _
    rw [invokeIfMatch, if_pos hfail]

/-- Witness for C2: a record matching on two present properties and on the
placeholder for an absent one. -/
theorem C2_property_matcher_witness :
    (invokeIfMatch recAcme
      [("SUBSYSTEM", "tty"), ("ID_VENDOR", "Acme"), ("ID_MODEL", "[null]")]).invoked = true :=
  (C2_property_matcher recAcme
    [("SUBSYSTEM", "tty"), ("ID_VENDOR", "Acme"), ("ID_MODEL", "[null]")]).1.mpr (by decide)

/-- **C7.** On the first failing filter pair a diagnostic carrying the
property name, the actual (placeholder-defaulted) value, and the expected
value is logged exactly when the name is neither `ID_BUS` nor
`ID_USB_INTERFACE_NUM`; for those two names the mismatch is silent. -/
theorem C7_diag_suppression (d : DeviceRecord) (F₁ F₂ : List (String × String)) (n e : String)
    (hpre : ∀ p ∈ F₁, propOrNull d p.1 = p.2)
    (hfail : propOrNull d n ≠ e) :
    (invokeIfMatch d (F₁ ++ (n, e) :: F₂)).diags =
      if n ≠ "ID_BUS" ∧ n ≠ "ID_USB_INTERFACE_NUM" then
        [(n, propOrNull d n, e)]
      else [] := by
  rw [invokeIfMatch_append_matched d F₁ ((n, e) :: F₂) hpre]
  show (invokeIfMatch d ((n, e) :: F₂)).diags = _
  rw [invokeIfMatch, if_pos hfail]

/-- Witness for C7: a vendor mismatch on a non-suppressed name is logged
with name, actual and expected value. -/
theorem C7_diag_suppression_witness :
    (invokeIfMatch recOtherCo [("ID_VENDOR", "Acme")]).diags =
      [("ID_VENDOR", "OtherCo", "Acme")] :=
  (C7_diag_suppression recOtherCo [] [] "ID_VENDOR" "Acme"
    (fun p hp => absurd hp (List.not_mem_nil p)) (by decide)).trans (by decide)

/-! ### The read loop (claims C6 and C8) -/

/-- A record with no readable action tag is dropped before the matcher. -/
theorem handleDeviceEvent_no_action (filters : List (String × String))
    (hasAdd hasRemove : Bool) (d : DeviceRecord) (h : d.action = none) :
    handleDeviceEvent filters hasAdd hasRemove d = { invoked := none, diags := [] } := by
  unfold handleDeviceEvent
  rw [h]

/-- A record with an action tag is routed through the handler selection. -/
theorem handleDeviceEvent_some_action (filters : List (String × String))
    (hasAdd hasRemove : Bool) (d : DeviceRecord) (a : String) (h : d.action = some a) :
    handleDeviceEvent filters hasAdd hasRemove d =
      handleAction filters hasAdd hasRemove d a := by
  unfold handleDeviceEvent
  rw [h]

/-- An action tag that is neither `add` nor `remove` selects no handler. -/
theorem selectHandler_other (hasAdd hasRemove : Bool) (a : String)
    (h1 : a ≠ "add") (h2 : a ≠ "remove") :
    selectHandler hasAdd hasRemove a = none := by
  unfold selectHandler
  rw [if_neg h1, if_neg h2]

/-- **C6.** A dequeued event whose action tag is unreadable, or readable
but neither `add` nor `remove`, produces no callback invocation and no
diagnostic, and the loop re-arms for the next event. -/
theorem C6_unrecognized_action_dropped (filters : List (String × String))
    (hasAdd hasRemove : Bool) (ec : ErrorCode) (d : DeviceRecord)
    (hec : ec ≠ ErrorCode.badFileDescriptor)
    (ha : d.action = none ∨ ∃ a, d.action = some a ∧ a ≠ "add" ∧ a ≠ "remove") :
    receiveEventStep filters hasAdd hasRemove ec d =
      StepResult.rearmed { invoked := none, diags := [] } := by
  unfold receiveEventStep
  rw [if_neg hec]
  rcases ha with h | ⟨a, h, ha1, ha2⟩
  · rw [handleDeviceEvent_no_action filters hasAdd hasRemove d h]
  · rw [handleDeviceEvent_some_action filters hasAdd hasRemove d a h]
    unfold handleAction
    rw [selectHandler_other hasAdd hasRemove a ha1 ha2]

/-- Witness for C6 on a live `change` event. -/
theorem C6_unrecognized_action_dropped_witness :
    receiveEventStep [] true true ErrorCode.success recChangeEvent =
      StepResult.rearmed { invoked := none, diags := [] } :=
  C6_unrecognized_action_dropped [] true true ErrorCode.success recChangeEvent
    (by decide) (Or.inr ⟨"change", rfl, by decide, by decide⟩)

/-- **C8.** After `stop()` closes the channel (`closed = true`), the loop
delivers nothing — not even events still pending in the channel — because
each wait resolves with the `bad_file_descriptor` signal, which the handler
treats as terminal before dequeuing, exiting without re-arming. -/
theorem C8_stop_drops_pending (filters : List (String × String)) (hasAdd hasRemove : Bool)
    (pending : List DeviceRecord) (d : DeviceRecord) :
    runLoop filters hasAdd hasRemove true pending = [] ∧
    receiveEventStep filters hasAdd hasRemove ErrorCode.badFileDescriptor d =
      StepResult.terminated := by
  constructor
  · cases pending with
    | nil => rfl
    | cons d' rest => rfl
  · rfl

end Devil
